import Mathlib

/-
Verification of the AI mail summarizer service layer.

Shallow embedding of the Python sources under app/ into Lean 4.

Modelling conventions:
  * Python `str` values are modelled as `List Char`; `pystr` converts a
    Lean string literal to that representation.
  * Python byte strings are modelled as `List Nat` (each entry < 256).
  * Python `None` results are modelled with `Option`; raised exceptions of
    service functions are modelled with `Except ServiceError`.
  * JSON values (the results of `json.loads`) are modelled by the
    inductive type `JValue`; Python dicts preserve insertion order, so
    objects are association lists.
  * `str.strip` and friends are modelled over the ASCII whitespace
    characters (space, tab, newline, carriage return, vertical tab,
    form feed); the sources only ever strip ASCII payloads.
-/

set_option linter.unusedVariables false
set_option maxRecDepth 65536

/-- Convert a Lean string literal to the `List Char` representation used
for embedded Python strings. -/
def pystr (s : String) : List Char := s.data

/-- The `\x7b` character (left curly brace). -/
def lbrace : Char := Char.ofNat 123

/-- The `\x7d` character (right curly brace). -/
def rbrace : Char := Char.ofNat 125

/-- Whitespace as recognised by Python's `str.strip` (ASCII subset). -/
def pyIsSpace (c : Char) : Bool :=
  c = ' ' || c = '\t' || c = '\n' || c = '\r' || c = Char.ofNat 11 || c = Char.ofNat 12

/-- Python `s.lstrip()` (ASCII whitespace). -/
def pyLStrip (s : List Char) : List Char := s.dropWhile pyIsSpace

/-- Python `s.rstrip()` (ASCII whitespace). -/
def pyRStrip (s : List Char) : List Char := (s.reverse.dropWhile pyIsSpace).reverse

/-- Python `s.strip()` (ASCII whitespace). -/
def pyStrip (s : List Char) : List Char := pyRStrip (pyLStrip s)

/-- Python `s.rstrip("=")`, as used on base64 output in `security.py`. -/
def pyRStripEq (s : List Char) : List Char := (s.reverse.dropWhile (· = '=')).reverse

/-- Python `s.replace("\r\n", "\n")`: left-to-right, non-overlapping. -/
def pyReplaceCRLF : List Char → List Char
  | [] => []
  | '\r' :: '\n' :: rest => '\n' :: pyReplaceCRLF rest
  | c :: rest => c :: pyReplaceCRLF rest

/-- Python `s.split("\n")`: always yields at least one (possibly empty)
piece; a trailing newline yields a trailing empty piece. -/
def splitOnNl : List Char → List (List Char)
  | [] => [[]]
  | c :: rest =>
    if c = '\n' then [] :: splitOnNl rest
    else
      match splitOnNl rest with
      | [] => [[c]]
      | l :: ls => (c :: l) :: ls

/-- Python `"\n".join(lines)`. -/
def joinNl : List (List Char) → List Char
  | [] => []
  | [l] => l
  | l :: ls => l ++ '\n' :: joinNl ls

/-- First index at which `pat` occurs as a substring of `s`
(Python `s.find(pat)` when the result is not `-1`). -/
def findSub (s pat : List Char) : Option Nat :=
  match s with
  | [] => if pat = [] then some 0 else none
  | _ :: rest =>
    if pat.isPrefixOf s then some 0
    else (findSub rest pat).map (· + 1)

/-- First index of character `c` in `s`. -/
def idxOfChar (s : List Char) (c : Char) : Option Nat :=
  match s with
  | [] => none
  | d :: rest => if d = c then some 0 else (idxOfChar rest c).map (· + 1)

/-- Last index of character `c` in `s`. -/
def lastIdxOfChar (s : List Char) (c : Char) : Option Nat :=
  match s with
  | [] => none
  | d :: rest =>
    match lastIdxOfChar rest c with
    | some i => some (i + 1)
    | none => if d = c then some 0 else none

/-- Python `str(n)` for natural numbers. -/
def natToDec (n : Nat) : List Char := (Nat.repr n).data

/-- Python `str(n)` for integers. -/
def intToDec (n : Int) : List Char := (Int.repr n).data

/-- JSON values as produced by Python's `json.loads`. Objects are
association lists in insertion order (Python dicts preserve it); numbers
are restricted to integers (the service never relies on float payloads;
see `jsonLoads`). -/
inductive JValue where
  | null : JValue
  | bool : Bool → JValue
  | num : Int → JValue
  | str : List Char → JValue
  | arr : List JValue → JValue
  | obj : List (List Char × JValue) → JValue

/-- A parsed JSON object (a Python `dict[str, Any]`). -/
abbrev JObj := List (List Char × JValue)

/-- Python `d.get(k)` / `k in d` on a dict: first binding of the key. -/
def lookupJ (d : JObj) (k : List Char) : Option JValue :=
  match d with
  | [] => none
  | (k', v) :: rest => if k' = k then some v else lookupJ rest k

/-- Insert a key into a dict as Python does while parsing JSON: a
duplicate key keeps its original position but takes the later value. -/
def insertJ (d : JObj) (k : List Char) (v : JValue) : JObj :=
  match d with
  | [] => [(k, v)]
  | (k', v') :: rest => if k' = k then (k', v) :: rest else (k', v') :: insertJ rest k v

/-- Python truthiness of a JSON value. -/
def pyTruthy : JValue → Bool
  | .null => false
  | .bool b => b
  | .num n => n != 0
  | .str s => s != []
  | .arr xs => !xs.isEmpty
  | .obj kvs => !kvs.isEmpty

mutual
/-- Python `repr` of a JSON value, used by `str` on lists/dicts. The
escaping of exotic characters inside `repr` of strings is simplified to
the identity; the services only ever feed such values to length-limited
text fields. -/
def pyRepr : JValue → List Char
  | .null => pystr "None"
  | .bool b => if b then pystr "True" else pystr "False"
  | .num n => intToDec n
  | .str s => '\'' :: s ++ ['\'']
  | .arr xs => '[' :: pyReprList xs ++ [']']
  | .obj kvs => lbrace :: pyReprObj kvs ++ [rbrace]

def pyReprList : List JValue → List Char
  | [] => []
  | [v] => pyRepr v
  | v :: rest => pyRepr v ++ ',' :: ' ' :: pyReprList rest

def pyReprObj : List (List Char × JValue) → List Char
  | [] => []
  | [(k, v)] => '\'' :: k ++ '\'' :: ':' :: ' ' :: pyRepr v
  | (k, v) :: rest => '\'' :: k ++ '\'' :: ':' :: ' ' :: pyRepr v ++ ',' :: ' ' :: pyReprObj rest
end

/-- Python `str(v)` of a JSON value. -/
def pyStrOf : JValue → List Char
  | .null => pystr "None"
  | .bool b => if b then pystr "True" else pystr "False"
  | .num n => intToDec n
  | .str s => s
  | .arr xs => pyRepr (.arr xs)
  | .obj kvs => pyRepr (.obj kvs)

/-
app/email_cleaner.py
-/

/-- Whitespace as matched by the regex class `\s` (ASCII subset), used by
the `^From:\s`-style thread separators. -/
def reIsSpace (c : Char) : Bool := pyIsSpace c

/-- Does a line match `^-----Original Message-----$` (with `(?m)`, the
line must consist of exactly that text)? -/
def sepOriginalMessage (line : List Char) (hasNl : Bool) : Bool :=
  line = pystr "-----Original Message-----"

/-- Does a line match the full-line pattern `^---+ 転送メッセージ ---+$`
(three or more dashes, the forwarded-message marker, three or more
dashes)? -/
def sepForwarded (line : List Char) (hasNl : Bool) : Bool :=
  let d1 := line.takeWhile (· = '-')
  let rest := line.dropWhile (· = '-')
  let mid := pystr " 転送メッセージ "
  decide (3 ≤ d1.length) &&
    mid.isPrefixOf rest &&
    (let tail := rest.drop mid.length
     decide (3 ≤ tail.length) && tail.all (· = '-'))

/-- Does a line match `^<header>\s`?  `\s` may be satisfied by the
newline that terminates the line in the full text, which is why the
matcher is told whether a newline follows the line. -/
def sepHeader (header : List Char) (line : List Char) (hasNl : Bool) : Bool :=
  (match line.drop header.length with
   | c :: _ => header.isPrefixOf line && reIsSpace c
   | [] => line = header && hasNl)

/-- The six thread-separator patterns of `_THREAD_SEPARATORS`, in order,
as line matchers. -/
def threadSeparators : List (List Char → Bool → Bool) :=
  [ sepOriginalMessage
  , sepForwarded
  , sepHeader (pystr "From:")
  , sepHeader (pystr "Sent:")
  , sepHeader (pystr "To:")
  , sepHeader (pystr "Subject:")
  ]

/-- Offset (in the whole text) of the first line, starting at `off`,
that satisfies the multiline-anchored matcher `p`; models
`re.search((?m)^...)` returning `m.start()`. -/
def findLineOffset (p : List Char → Bool → Bool) : Nat → List (List Char) → Option Nat
  | _, [] => none
  | off, [l] => if p l false then some off else none
  | off, l :: ls =>
    if p l true then some off else findLineOffset p (off + l.length + 1) ls

/-- Offsets of every line matching `^From:\s` (models
`re.finditer(r"(?m)^From:\s", text)` start positions). -/
def fromHitOffsets : Nat → List (List Char) → List Nat
  | _, [] => []
  | off, [l] => if sepHeader (pystr "From:") l false then [off] else []
  | off, l :: ls =>
    let rest := fromHitOffsets (off + l.length + 1) ls
    if sepHeader (pystr "From:") l true then off :: rest else rest

/-- The thread-separator loop of `clean_email_text`: the first pattern
(in list order) whose earliest match starts after position 0 yields the
cut position; a pattern whose only `re.search` hit starts at position 0
is skipped entirely. -/
def sepCutOffset (text : List Char) : Option Nat :=
  (threadSeparators.map (fun p => findLineOffset p 0 (splitOnNl text))).foldr
    (fun hit acc =>
      match hit with
      | some off => if 0 < off then some off else acc
      | none => acc)
    none

/-- Is a line dropped by the quoted-line filter
(`ln.lstrip().startswith(">")`)? -/
def isQuoteLine (line : List Char) : Bool :=
  match pyLStrip line with
  | c :: _ => c = '>'
  | [] => false

/-- `clean_email_text` from app/email_cleaner.py. -/
def clean_email_text (raw : List Char) : List Char :=
  let text := pyStrip (pyReplaceCRLF raw)
  if text = [] then []
  else
    let text :=
      match fromHitOffsets 0 (splitOnNl text) with
      | _ :: h2 :: _ => pyRStrip (text.take h2)
      | _ => text
    let text :=
      match sepCutOffset text with
      | some off => pyRStrip (text.take off)
      | none => text
    let lines := (splitOnNl text).filter (fun ln => !isQuoteLine ln)
    pyStrip (joinNl lines)

/-
app/models.py and app/services/conversation_service.py
-/

/-- The mutable columns of `FormState` (app/models.py, form_states
table) that the conversation service reads and writes. -/
structure FormState where
  summary : List Char
  cause : List Char
  action : List Char
  body : List Char
  include_summary : Bool
  include_cause : Bool
  include_action : Bool
  include_body : Bool
deriving DecidableEq, Repr

/-- Configurable Pleasanter column names (app/config.py); the defaults
are DescriptionA/DescriptionB/DescriptionC/Body. -/
structure ColumnConfig where
  summary_column : List Char
  cause_column : List Char
  action_column : List Char
  body_column : List Char

/-- The default column configuration from `PleasanterConfig`. -/
def defaultColumns : ColumnConfig :=
  ⟨pystr "DescriptionA", pystr "DescriptionB", pystr "DescriptionC", pystr "Body"⟩

/-- `_limit_chars` from conversation_service.py. -/
def limit_chars (s : List Char) (maxChars : Nat) : List Char :=
  if maxChars = 0 then []
  else if s.length ≤ maxChars then s else s.take maxChars

/-- Candidate keys for the summary field (`summary_keys`). -/
def summaryKeys (cfg : ColumnConfig) : List (List Char) :=
  [cfg.summary_column, pystr "summary", pystr "overview", pystr "DescriptionA"]

/-- Candidate keys for the cause field (`cause_keys`). -/
def causeKeys (cfg : ColumnConfig) : List (List Char) :=
  [cfg.cause_column, pystr "cause", pystr "DescriptionB"]

/-- Candidate keys for the action field (`action_keys`). -/
def actionKeys (cfg : ColumnConfig) : List (List Char) :=
  [cfg.action_column, pystr "action", pystr "solution", pystr "DescriptionC"]

/-- Candidate keys for the body field (`body_keys`). -/
def bodyKeys (cfg : ColumnConfig) : List (List Char) :=
  [cfg.body_column, pystr "body", pystr "details", pystr "Body"]

/-- The inner `pick` helper of `apply_parsed_to_form`: walk the
candidate keys in order; skip keys that are absent, bound to `None`, or
bound to a blank string; on the first remaining hit return
`(True, str(v))`. -/
def pickField (parsed : JObj) : List (List Char) → Bool × List Char
  | [] => (false, [])
  | k :: ks =>
    match lookupJ parsed k with
    | none => pickField parsed ks
    | some .null => pickField parsed ks
    | some (.str s) => if pyStrip s = [] then pickField parsed ks else (true, s)
    | some v => (true, pyStrOf v)

/-- `ConversationService.apply_parsed_to_form`: apply a parsed model
answer to the form, truncating summary/cause/action to 200 characters
and storing the body untruncated. -/
def apply_parsed_to_form (cfg : ColumnConfig) (form : FormState) (parsed : JObj) : FormState :=
  let ps := pickField parsed (summaryKeys cfg)
  let pc := pickField parsed (causeKeys cfg)
  let pa := pickField parsed (actionKeys cfg)
  let pb := pickField parsed (bodyKeys cfg)
  { form with
    summary := if ps.1 then limit_chars ps.2 200 else form.summary
    cause := if pc.1 then limit_chars pc.2 200 else form.cause
    action := if pa.1 then limit_chars pa.2 200 else form.action
    body := if pb.1 then pb.2 else form.body }

/-- Errors raised by the embedded service functions (`HTTPException`
status classes). -/
inductive ServiceError where
  | validation : List Char → ServiceError
  | notFound : List Char → ServiceError
  | internal : ServiceError
deriving DecidableEq, Repr

/-- Python `str(x or "")` applied to an optional JSON value, as used on
request payload fields: falsy values (absent, `None`, `0`, `False`,
empty string/list/dict) become the empty string, everything else is
`str`-rendered. -/
def strCoerce (v : Option JValue) : List Char :=
  match v with
  | none => []
  | some v => if pyTruthy v then pyStrOf v else []

/-- Python `bool(payload.get(k, True))`: truthiness of the value when
the key is present, `True` when absent. -/
def boolGetDefaultTrue (payload : JObj) (k : List Char) : Bool :=
  match lookupJ payload k with
  | none => true
  | some v => pyTruthy v

/-- `ConversationService.update_form`, restricted to its effect on the
form record (the conversation lookup and timestamp update are outside
this model): requires a non-blank `conversation_id`, then overwrites all
four text fields with `str(value or "")` and the four include flags with
`bool(value, default True)`. -/
def update_form (payload : JObj) (form : FormState) : Except ServiceError FormState :=
  let conversationId := pyStrip (strCoerce (lookupJ payload (pystr "conversation_id")))
  if conversationId = [] then
    .error (.validation (pystr "conversation_id is required"))
  else
    .ok
      { summary := strCoerce (lookupJ payload (pystr "summary"))
        cause := strCoerce (lookupJ payload (pystr "cause"))
        action := strCoerce (lookupJ payload (pystr "action"))
        body := strCoerce (lookupJ payload (pystr "body"))
        include_summary := boolGetDefaultTrue payload (pystr "include_summary")
        include_cause := boolGetDefaultTrue payload (pystr "include_cause")
        include_action := boolGetDefaultTrue payload (pystr "include_action")
        include_body := boolGetDefaultTrue payload (pystr "include_body") }

/-- The instruction-extraction loop of `ConversationService.chat_ui_post`:
first key among user_comment/instruction/message/text/content/query/
input/prompt whose value is a non-blank string, stripped. -/
def findInstruction (payload : JObj) : Option (List Char) :=
  (List.map pystr
      ["user_comment", "instruction", "message", "text", "content", "query", "input", "prompt"]).foldr
    (fun k acc =>
      match lookupJ payload k with
      | some (.str s) => if pyStrip s = [] then acc else some (pyStrip s)
      | _ => acc)
    none

/-- Is the payload value under this key a string
(`isinstance(payload.get(k), str)`)? -/
def isStrVal (payload : JObj) (k : List Char) : Bool :=
  match lookupJ payload k with
  | some (.str _) => true
  | _ => false

/-- The string stored by `str(payload.get(k) or "")` when the value is
known to be a string: the string itself (an empty string survives the
`or` unchanged). -/
def strFieldValue (payload : JObj) (k : List Char) : List Char :=
  strCoerce (lookupJ payload k)

/-- `ConversationService.chat_ui_post`, restricted to its effect on the
form record before the edit prompt is built (conversation lookup,
prompt construction and the Dify round trip are outside this model):
requires an instruction, then sets each include flag to whether the
field key holds a string value and overwrites the field from the
payload exactly when it does. -/
def chat_ui_post_form (payload : JObj) (f : FormState) : Except ServiceError FormState :=
  match findInstruction payload with
  | none => .error (.validation (pystr "user_comment is required"))
  | some _instr =>
    let hasSummary := isStrVal payload (pystr "summary")
    let hasCause := isStrVal payload (pystr "cause")
    let hasAction := isStrVal payload (pystr "action")
    let hasBody := isStrVal payload (pystr "body")
    .ok
      { summary := if hasSummary then strFieldValue payload (pystr "summary") else f.summary
        cause := if hasCause then strFieldValue payload (pystr "cause") else f.cause
        action := if hasAction then strFieldValue payload (pystr "action") else f.action
        body := if hasBody then strFieldValue payload (pystr "body") else f.body
        include_summary := hasSummary
        include_cause := hasCause
        include_action := hasAction
        include_body := hasBody }

/-
app/services/dify_service.py
-/

/-- The begin marker `<<<USER_MESSAGE_BEGIN>>>`. -/
def markerBegin : List Char := pystr "<<<USER_MESSAGE_BEGIN>>>"

/-- The end marker `<<<USER_MESSAGE_END>>>`. -/
def markerEnd : List Char := pystr "<<<USER_MESSAGE_END>>>"

/-- Python `s.find(pat, start)`: first occurrence at index `start` or
later. -/
def findSubFrom (s pat : List Char) (start : Nat) : Option Nat :=
  (findSub (s.drop start) pat).map (· + start)

/-- `DifyService.extract_user_message`: prefer the text between the
user-message markers; without a usable marker pair fall back to the
whole trimmed query if it is short (at most 160 characters). -/
def extract_user_message (query : List Char) : Option (List Char) :=
  let q := pyStrip query
  if q = [] then none
  else
    let fallback : Option (List Char) := if q.length ≤ 160 then some q else none
    match findSub q markerBegin with
    | none => fallback
    | some b =>
      let b2 := b + markerBegin.length
      match findSubFrom q markerEnd b2 with
      | none => fallback
      | some e =>
        let msg := pyStrip ((q.drop b2).take (e - b2))
        if msg = [] then none else some msg

/-- Claim-side restatement of the amended user-message contract: the
enclosed trimmed text when the marker pair is found and that text is
non-empty (absent-value when it trims to nothing); otherwise the whole
trimmed query exactly when it is non-empty and at most 160 characters;
absent-value in every other case. -/
def specExtractUserMessage (query : List Char) : Option (List Char) :=
  let q := pyStrip query
  match findSub q markerBegin with
  | some b =>
    match findSubFrom q markerEnd (b + markerBegin.length) with
    | some e =>
      let msg := pyStrip ((q.drop (b + markerBegin.length)).take (e - (b + markerBegin.length)))
      if msg = [] then none else some msg
    | none => if q ≠ [] ∧ q.length ≤ 160 then some q else none
  | none => if q ≠ [] ∧ q.length ≤ 160 then some q else none

/-
app/utils/json_extract.py and the fragment of Python's `json.loads`
that it relies on.
-/

/-- JSON whitespace accepted by `json.loads` between tokens. -/
def isJsonWs (c : Char) : Bool := c = ' ' || c = '\t' || c = '\n' || c = '\r'

/-- Skip JSON whitespace. -/
def skipWs (s : List Char) : List Char := s.dropWhile isJsonWs

/-- Hexadecimal digit value. -/
def hexVal (c : Char) : Option Nat :=
  if '0' ≤ c ∧ c ≤ '9' then some (c.toNat - '0'.toNat)
  else if 'a' ≤ c ∧ c ≤ 'f' then some (c.toNat - 'a'.toNat + 10)
  else if 'A' ≤ c ∧ c ≤ 'F' then some (c.toNat - 'A'.toNat + 10)
  else none

/-- Parse the remainder of a JSON string literal (the opening quote has
been consumed): strict mode, so unescaped control characters are
rejected; `\uXXXX` escapes outside the surrogate range become the
corresponding character (surrogate pairs are not modelled and fail). -/
def parseJsonString : List Char → Option (List Char × List Char)
  | [] => none
  | '"' :: rest => some ([], rest)
  | '\\' :: e :: rest =>
    (match e with
     | '"' => (parseJsonString rest).map (fun p => ('"' :: p.1, p.2))
     | '\\' => (parseJsonString rest).map (fun p => ('\\' :: p.1, p.2))
     | '/' => (parseJsonString rest).map (fun p => ('/' :: p.1, p.2))
     | 'b' => (parseJsonString rest).map (fun p => (Char.ofNat 8 :: p.1, p.2))
     | 'f' => (parseJsonString rest).map (fun p => (Char.ofNat 12 :: p.1, p.2))
     | 'n' => (parseJsonString rest).map (fun p => ('\n' :: p.1, p.2))
     | 'r' => (parseJsonString rest).map (fun p => ('\r' :: p.1, p.2))
     | 't' => (parseJsonString rest).map (fun p => ('\t' :: p.1, p.2))
     | 'u' =>
       match rest with
       | h1 :: h2 :: h3 :: h4 :: rest' =>
         match hexVal h1, hexVal h2, hexVal h3, hexVal h4 with
         | some v1, some v2, some v3, some v4 =>
           let v := ((v1 * 16 + v2) * 16 + v3) * 16 + v4
           if 0xD800 ≤ v ∧ v < 0xE000 then none
           else (parseJsonString rest').map (fun p => (Char.ofNat v :: p.1, p.2))
         | _, _, _, _ => none
       | _ => none
     | _ => none)
  | c :: rest =>
    if c.toNat < 32 then none
    else (parseJsonString rest).map (fun p => (c :: p.1, p.2))

/-- Parse a JSON integer literal: optional minus sign, then `0` or a
nonzero-led digit run.  A following `.`, `e` or `E` (a float literal)
is not modelled and fails the parse. -/
def parseJsonNumber (s : List Char) : Option (Int × List Char) :=
  let core : List Char → Option (Nat × List Char) := fun t =>
    match t with
    | '0' :: rest => some (0, rest)
    | c :: _ =>
      if '1' ≤ c ∧ c ≤ '9' then
        let digits := t.takeWhile (fun d => '0' ≤ d ∧ d ≤ '9')
        some (digits.foldl (fun acc d => acc * 10 + (d.toNat - '0'.toNat)) 0,
              t.dropWhile (fun d => '0' ≤ d ∧ d ≤ '9'))
      else none
    | [] => none
  let signed : Option (Int × List Char) :=
    match s with
    | '-' :: t => (core t).map (fun p => (-(p.1 : Int), p.2))
    | _ => (core s).map (fun p => ((p.1 : Int), p.2))
  match signed with
  | some (n, rest) =>
    match rest with
    | c :: _ => if c = '.' ∨ c = 'e' ∨ c = 'E' then none else some (n, rest)
    | [] => some (n, rest)
  | none => none

mutual
/-- Parse one JSON value (fuel-indexed recursive-descent model of the
value grammar accepted by `json.loads`). -/
def parseJsonValue : Nat → List Char → Option (JValue × List Char)
  | 0, _ => none
  | _ + 1, [] => none
  | fuel + 1, c :: rest =>
    if c = '"' then (parseJsonString rest).map (fun p => (JValue.str p.1, p.2))
    else if c = lbrace then
      match skipWs rest with
      | d :: rest' =>
        if d = rbrace then some (JValue.obj [], rest')
        else parseJsonMembers fuel [] (d :: rest')
      | [] => none
    else if c = '[' then
      match skipWs rest with
      | d :: rest' =>
        if d = ']' then some (JValue.arr [], rest')
        else parseJsonElements fuel [] (d :: rest')
      | [] => none
    else if (pystr "true").isPrefixOf (c :: rest) then
      some (JValue.bool true, (c :: rest).drop 4)
    else if (pystr "false").isPrefixOf (c :: rest) then
      some (JValue.bool false, (c :: rest).drop 5)
    else if (pystr "null").isPrefixOf (c :: rest) then
      some (JValue.null, (c :: rest).drop 4)
    else (parseJsonNumber (c :: rest)).map (fun p => (JValue.num p.1, p.2))

/-- Parse the members of a JSON object after its opening brace (the next
character is known not to be a closing brace). -/
def parseJsonMembers : Nat → JObj → List Char → Option (JValue × List Char)
  | 0, _, _ => none
  | fuel + 1, acc, s =>
    match s with
    | '"' :: rest =>
      match parseJsonString rest with
      | some (key, rest1) =>
        (match skipWs rest1 with
         | ':' :: rest2 =>
           match parseJsonValue fuel (skipWs rest2) with
           | some (v, rest3) =>
             let acc' := insertJ acc key v
             (match skipWs rest3 with
              | ',' :: rest4 =>
                (match skipWs rest4 with
                 | d :: rest5 => parseJsonMembers fuel acc' (d :: rest5)
                 | [] => none)
              | d :: rest4 => if d = rbrace then some (JValue.obj acc', rest4) else none
              | [] => none)
           | none => none
         | _ => none)
      | none => none
    | _ => none

/-- Parse the elements of a JSON array after its opening bracket (the
next character is known not to be a closing bracket). -/
def parseJsonElements : Nat → List JValue → List Char → Option (JValue × List Char)
  | 0, _, _ => none
  | fuel + 1, acc, s =>
    match parseJsonValue fuel s with
    | some (v, rest) =>
      (match skipWs rest with
       | ',' :: rest1 =>
         (match skipWs rest1 with
          | d :: rest2 => parseJsonElements fuel (acc ++ [v]) (d :: rest2)
          | [] => none)
       | ']' :: rest1 => some (JValue.arr (acc ++ [v]), rest1)
       | _ => none)
    | none => none
end

/-- Model of Python `json.loads` on the JSON fragment used by the
application: leading/trailing whitespace is permitted, the entire input
must be consumed, and a parse error yields `none` (the callers convert
the raised `JSONDecodeError` to control flow). -/
def jsonLoads (s : List Char) : Option JValue :=
  match parseJsonValue (s.length + 1) (skipWs s) with
  | some (v, rest) => if skipWs rest = [] then some v else none
  | none => none

/-- The greedy brace regex `\x7b[\s\S]*\x7d` of `try_parse_json_answer`:
the span from the first opening brace to the last closing brace,
provided the latter comes after the former. -/
def braceSpan (s : List Char) : Option (List Char) :=
  match idxOfChar s lbrace, lastIdxOfChar s rbrace with
  | some b, some e => if b < e then some ((s.drop b).take (e + 1 - b)) else none
  | _, _ => none

/-- `try_parse_json_answer` from app/utils/json_extract.py. -/
def try_parse_json_answer (answer : List Char) : Option JObj :=
  if pyStrip answer = [] then none
  else
    let s := pyStrip answer
    match jsonLoads s with
    | some (.obj kvs) => some kvs
    | some _ => none
    | none =>
      match braceSpan s with
      | none => none
      | some t =>
        match jsonLoads t with
        | some (.obj kvs) => some kvs
        | _ => none

/-- Claim-side restatement of the extraction contract: parse the whole
trimmed string and return it exactly when it is an object; only on a
parse failure fall back to the greedy first-brace-to-last-brace span and
return its parse exactly when that is an object; absent-value otherwise
(including a whole-string parse yielding a non-object). -/
def specParseAnswer (answer : List Char) : Option JObj :=
  let s := pyStrip answer
  match jsonLoads s with
  | some (.obj kvs) => some kvs
  | some _ => none
  | none =>
    match braceSpan s with
    | some t =>
      match jsonLoads t with
      | some (.obj kvs) => some kvs
      | _ => none
    | none => none

/-
app/services/pleasanter_service.py (the candidate-mail processing slice
of summarize_case).
-/

mutual
/-- `_extract_nested_value`: depth-first search for `key`; a dict that
contains the key answers immediately with its value (`None` included,
which the `Option` models as `none`); otherwise the values (then list
elements) are searched in order and the first non-`None` find wins. -/
def extractNested (key : List Char) : JValue → Option JValue
  | .obj kvs =>
    match lookupJ kvs key with
    | some .null => none
    | some v => some v
    | none => extractNestedKVs key kvs
  | .arr xs => extractNestedList key xs
  | _ => none

def extractNestedKVs (key : List Char) : List (List Char × JValue) → Option JValue
  | [] => none
  | (_, v) :: rest =>
    match extractNested key v with
    | some found => some found
    | none => extractNestedKVs key rest

def extractNestedList (key : List Char) : List JValue → Option JValue
  | [] => none
  | v :: rest =>
    match extractNested key v with
    | some found => some found
    | none => extractNestedList key rest
end

/-- The per-key step of `_extract_mail_body`: `item.get(k)`, falling
back to the nested search when the direct value is absent or `None`. -/
def getOrNested (item : JObj) (k : List Char) : Option JValue :=
  match lookupJ item k with
  | some .null => extractNested k (.obj item)
  | some v => some v
  | none => extractNested k (.obj item)

/-- `_extract_mail_body`: the first candidate key (preferred column,
then Body/MailBody/Text/Description) whose value is a non-blank string
yields that string stripped; otherwise the empty string. -/
def extract_mail_body (item : JObj) (preferred : List Char) : List Char :=
  ([preferred, pystr "Body", pystr "MailBody", pystr "Text", pystr "Description"]).foldr
    (fun k acc =>
      match getOrNested item k with
      | some (.str s) => if pyStrip s = [] then acc else pyStrip s
      | _ => acc)
    []

/-- One rendered email block `## メール{idx}` + newline + cleaned text,
stripped. -/
def mailBlock (idx : Nat) (cleaned : List Char) : List Char :=
  pyStrip (pystr "## メール" ++ natToDec idx ++ '\n' :: cleaned)

/-- The candidate-mail loop of `summarize_case` (lines 443-478): walk
the sorted items, skip rows without an extractable body, accumulate the
rendered blocks, and remember the cleaned text of the last extractable
row (`latest_cleaned`). -/
def mailLoop (bodyCol : List Char) : Nat → List JObj → List (List Char) × Option (List Char)
  | _, [] => ([], none)
  | idx, it :: rest =>
    let raw := extract_mail_body it bodyCol
    if raw = [] then mailLoop bodyCol (idx + 1) rest
    else
      let cleaned := clean_email_text raw
      let out := mailLoop bodyCol (idx + 1) rest
      (mailBlock idx cleaned :: out.1, some (out.2.getD cleaned))

/-- Outcome of the mail-processing stage of `summarize_case`: either the
NotFound failure (`No email body found for this summary`, HTTP 404) or
progression to the prompt-building and LLM step carrying the combined
cleaned text. -/
inductive SummarizeOutcome where
  | notFound : SummarizeOutcome
  | proceed : List Char → SummarizeOutcome
deriving DecidableEq, Repr

/-- Python `"\n\n".join(blocks)`. -/
def joinBlocks : List (List Char) → List Char
  | [] => []
  | [b] => b
  | b :: bs => b ++ '\n' :: '\n' :: joinBlocks bs

/-- The decision of `summarize_case` after the candidate-mail loop: the
operation raises NotFound exactly when `latest_cleaned` is falsy (absent
or empty), and otherwise proceeds to build the summarize prompt from the
combined cleaned text. -/
def summarize_case_outcome (bodyCol : List Char) (sortedItems : List JObj) : SummarizeOutcome :=
  let out := mailLoop bodyCol 1 sortedItems
  match out.2 with
  | none => .notFound
  | some c => if c = [] then .notFound else .proceed (pyStrip (joinBlocks out.1))

/-- Does a candidate mail row yield an extractable body? -/
def extractableRow (bodyCol : List Char) (item : JObj) : Bool :=
  !(extract_mail_body item bodyCol).isEmpty

/-
app/security.py.  Passwords and derived keys are byte lists; the call
`hashlib.pbkdf2_hmac("sha256", password, salt, iterations, dklen)` is
abstracted as a function parameter `prf` (password → salt → iterations
→ dklen → derived key); the random salt of `os.urandom` is an explicit
argument.
-/

/-- The urlsafe base64 alphabet. -/
def b64chars : List Char :=
  pystr "ABCDEFGHIJKLMNOPQRSTUVWXYZabcdefghijklmnopqrstuvwxyz0123456789-_"

/-- Character for a six-bit group. -/
def b64CharOf (n : Nat) : Char := b64chars.getD n 'A'

/-- Six-bit value of an alphabet character. -/
def b64ValOf (c : Char) : Option Nat :=
  (b64chars.findIdx? (· = c))

/-- `base64.urlsafe_b64encode` on a byte list, including `=` padding. -/
def b64encode : List Nat → List Char
  | [] => []
  | [b0] => [b64CharOf (b0 / 4), b64CharOf (b0 % 4 * 16), '=', '=']
  | [b0, b1] => [b64CharOf (b0 / 4), b64CharOf (b0 % 4 * 16 + b1 / 16), b64CharOf (b1 % 16 * 4), '=']
  | b0 :: b1 :: b2 :: rest =>
    b64CharOf (b0 / 4) :: b64CharOf (b0 % 4 * 16 + b1 / 16) ::
      b64CharOf (b1 % 16 * 4 + b2 / 64) :: b64CharOf (b2 % 64) :: b64encode rest

/-- `base64.urlsafe_b64decode` on a correctly padded input: quartets of
alphabet characters, the final quartet optionally padded.  Inputs with
characters outside the alphabet or a length not a multiple of four are
rejected (Python would discard foreign characters before decoding and
then fail on the padding instead; `verify_password` turns either event
into `False`). -/
def b64decode : List Char → Option (List Nat)
  | [] => some []
  | c0 :: c1 :: c2 :: c3 :: rest =>
    match b64ValOf c0, b64ValOf c1 with
    | some v0, some v1 =>
      if rest = [] ∧ c3 = '=' then
        if c2 = '=' then some [v0 * 4 + v1 / 16]
        else
          match b64ValOf c2 with
          | some v2 => some [v0 * 4 + v1 / 16, v1 % 16 * 16 + v2 / 4]
          | none => none
      else
        match b64ValOf c2, b64ValOf c3 with
        | some v2, some v3 =>
          (b64decode rest).map
            (fun bs => (v0 * 4 + v1 / 16) :: (v1 % 16 * 16 + v2 / 4) :: (v2 % 4 * 64 + v3) :: bs)
        | _, _ => none
    | _, _ => none
  | _ => none

/-- `_pad_b64`: append `"=" * (-len(s) % 4)`. -/
def pad_b64 (s : List Char) : List Char :=
  s ++ List.replicate ((4 - s.length % 4) % 4) '='

/-- Split at the first `$`, if any. -/
def splitDollarAux : List Char → Option (List Char × List Char)
  | [] => none
  | c :: rest =>
    if c = '$' then some ([], rest)
    else (splitDollarAux rest).map (fun p => (c :: p.1, p.2))

/-- Python `s.split("$", maxsplit)`. -/
def splitDollar : Nat → List Char → List (List Char)
  | 0, s => [s]
  | k + 1, s =>
    match splitDollarAux s with
    | none => [s]
    | some (a, b) => a :: splitDollar k b

/-- Python `int(s)` on a decimal literal: optional surrounding ASCII
whitespace, an optional sign, then at least one digit (underscore
grouping is not modelled). -/
def pyInt (s : List Char) : Option Int :=
  let t := pyStrip s
  let core : List Char → Option Nat := fun u =>
    if u ≠ [] ∧ u.all (fun d => '0' ≤ d ∧ d ≤ '9') then
      some (u.foldl (fun acc d => acc * 10 + (d.toNat - '0'.toNat)) 0)
    else none
  match t with
  | '-' :: u => (core u).map (fun n => -(n : Int))
  | '+' :: u => (core u).map (fun n => (n : Int))
  | _ => (core t).map (fun n => (n : Int))

/-- `_ALGO`. -/
def ALGO : List Char := pystr "pbkdf2_sha256"

/-- `_ITERATIONS`. -/
def ITERATIONS : Nat := 260000

/-- `hash_password` (app/security.py): empty passwords are rejected
(`ValueError`, modelled as `none`); otherwise the `$`-joined encoding of
the algorithm tag, the iteration count, and the unpadded urlsafe base64
of the salt and of the derived key. -/
def hash_password (prf : List Nat → List Nat → Nat → Nat → List Nat)
    (password salt : List Nat) : Option (List Char) :=
  if password = [] then none
  else
    some (ALGO ++ '$' :: (natToDec ITERATIONS ++ '$' :: (pyRStripEq (b64encode salt)
      ++ '$' :: pyRStripEq (b64encode (prf password salt ITERATIONS 32)))))

/-- `verify_password` (app/security.py): split into four `$`-separated
parts, check the algorithm tag, parse the iteration count, re-pad and
decode the salt and expected key, recompute the derived key with the
expected key's length, and compare; any failure along the way (the
`except` clause, including the `ValueError` that `pbkdf2_hmac` raises
for a non-positive iteration count or an empty derived key) yields
`False`. -/
def verify_password (prf : List Nat → List Nat → Nat → Nat → List Nat)
    (password : List Nat) (encoded : List Char) : Bool :=
  match splitDollar 3 encoded with
  | [algo, itersS, saltB64, dkB64] =>
    if algo ≠ ALGO then false
    else
      match pyInt itersS, b64decode (pad_b64 saltB64), b64decode (pad_b64 dkB64) with
      | some iters, some salt, some expected =>
        if iters < 1 ∨ expected.length < 1 then false
        else decide (prf password salt iters.toNat expected.length = expected)
      | _, _, _ => false
  | _ => false

/-- Claim-side well-formedness of an encoded value: exactly the parse
pipeline of `verify_password` up to the final comparison.  A candidate
for which this is `false` is malformed/unrecognized in the sense of the
specification. -/
def encodedParses (encoded : List Char) : Bool :=
  match splitDollar 3 encoded with
  | [algo, itersS, saltB64, dkB64] =>
    if algo ≠ ALGO then false
    else
      match pyInt itersS, b64decode (pad_b64 saltB64), b64decode (pad_b64 dkB64) with
      | some iters, some _, some expected => !(iters < 1 ∨ expected.length < 1)
      | _, _, _ => false
  | _ => false

/-
app/services/user_service.py.
-/

/-- Python `str.lower` on the ASCII range. -/
def pyLower (s : List Char) : List Char := s.map Char.toLower

/-- `normalize_role`: strip and lowercase, then map anything other than
`admin`/`user` to `user`.  The argument is optional because callers pass
`getattr(..., "role", None)`. -/
def normalize_role (role : Option (List Char)) : List Char :=
  let roleS := pyLower (pyStrip (role.getD []))
  if roleS = pystr "admin" ∨ roleS = pystr "user" then roleS else pystr "user"

/-- `is_admin_role`. -/
def is_admin_role (role : Option (List Char)) : Bool :=
  normalize_role role = pystr "admin"

/-- A row of the `users` table.  `dbRole` is the `role` column that
`UserService.ensure_schema` guarantees exists in the database (VARCHAR,
default `'user'`); the ORM entity `User` in app/models.py maps only
id/username/password_hash/created_at and does NOT map this column. -/
structure UserRow where
  id : Int
  username : List Char
  password_hash : List Char
  dbRole : List Char
deriving DecidableEq, Repr

/-- `getattr(user, "role", None)` on a `User` entity: app/models.py
declares no `role` attribute, so the lookup always falls back to the
default, regardless of the value stored in the database column. -/
def getattrRole (u : UserRow) : Option (List Char) := none

/-- `UserService.delete_user` over a users-table state: reject deleting
yourself, then a missing target, then (when the target's role attribute
is admin) the last remaining admin; otherwise delete the row.  Because
`getattrRole` is always `none`, the last-admin branch is unreachable in
the shipped code; if it were reached, the `User.role` expression in the
admin-count query would raise `AttributeError` (HTTP 500), which the
unreachable branch models as an internal error. -/
def delete_user (db : List UserRow) (meUserId targetUserId : Int) :
    Except ServiceError (List UserRow) :=
  if targetUserId = meUserId then
    .error (.validation (pystr "cannot delete yourself"))
  else
    match db.find? (fun u => u.id = targetUserId) with
    | none => .error (.notFound (pystr "user not found"))
    | some target =>
      if is_admin_role (getattrRole target) then
        .error .internal
      else
        .ok (db.filter (fun u => u.id ≠ targetUserId))

/-- How many rows of the state carry the exact role string `admin` (the
count the `User.role == _ROLE_ADMIN` query was meant to compute). -/
def adminCount (db : List UserRow) : Nat :=
  (db.filter (fun u => u.dbRole = pystr "admin")).length

/-
Claim-side predicates and concrete witness material.
-/

/-- Is this candidate key absent from the parsed object, or present
with a value `pick` skips (`None` or a blank string)? -/
def blankOrAbsent (parsed : JObj) (k : List Char) : Bool :=
  match lookupJ parsed k with
  | none => true
  | some .null => true
  | some (.str s) => pyStrip s = []
  | some _ => false

/-- None of the field's candidate keys are present with a usable
(non-`None`, non-blank) value. -/
def allCandidatesBlank (parsed : JObj) (keys : List (List Char)) : Bool :=
  keys.all (blankOrAbsent parsed)

/-- Claim-side condition for the amended C4: the mail-processing stage
has no usable mail body, i.e. either no candidate row yields an
extractable body, or the last row (in processed order) that does yields
a body whose cleaned form is empty. -/
def noUsableMailBody (bodyCol : List Char) (items : List JObj) : Bool :=
  match (items.filter (extractableRow bodyCol)).getLast? with
  | none => true
  | some it => clean_email_text (extract_mail_body it bodyCol) = []

/-- A concrete stand-in for `hashlib.pbkdf2_hmac("sha256", ...)` used
only to witness the password theorems: deterministic, output length
`dklen`, output bytes < 256. -/
def toyPrf (p s : List Nat) (i d : Nat) : List Nat :=
  ((p ++ s ++ List.replicate d 1).map (· % 256)).take d

/-
Theorems.
-/

theorem pickField_eq_of_allBlank (parsed : JObj) :
    ∀ keys, allCandidatesBlank parsed keys = true → pickField parsed keys = (false, []) := by
  intro keys
  induction keys with
  | nil => intro _; rfl
  | cons k ks ih =>
    intro h
    simp only [allCandidatesBlank, List.all_cons, Bool.and_eq_true] at h
    obtain ⟨h1, h2⟩ := h
    unfold blankOrAbsent at h1
    unfold pickField
    cases hl : lookupJ parsed k with
    | none => exact ih h2
    | some v =>
      rw [hl] at h1
      cases v with
      | null => exact ih h2
      | str s =>
        simp only [decide_eq_true_eq] at h1
        simp [h1, ih h2]
      | bool b => simp at h1
      | num n => simp at h1
      | arr xs => simp at h1
      | obj kvs => simp at h1

theorem limit_chars_200_take (s : List Char) : limit_chars s 200 = s.take 200 := by
  unfold limit_chars
  rw [if_neg (by norm_num)]
  by_cases h : s.length ≤ 200
  · rw [if_pos h, List.take_of_length_le h]
  · rw [if_neg h]

/-- C1: `apply_parsed_to_form` updates each of the four logical fields
only when some candidate key is present with a usable value; whenever
every candidate key of a field is absent, `None`, or a blank string,
that field keeps exactly its prior value, so a partial model response
never blanks out fields it did not return. -/
theorem C1_apply_parsed_preserves_unreturned_fields
    (cfg : ColumnConfig) (form : FormState) (parsed : JObj) :
    (allCandidatesBlank parsed (summaryKeys cfg) = true →
      (apply_parsed_to_form cfg form parsed).summary = form.summary) ∧
    (allCandidatesBlank parsed (causeKeys cfg) = true →
      (apply_parsed_to_form cfg form parsed).cause = form.cause) ∧
    (allCandidatesBlank parsed (actionKeys cfg) = true →
      (apply_parsed_to_form cfg form parsed).action = form.action) ∧
    (allCandidatesBlank parsed (bodyKeys cfg) = true →
      (apply_parsed_to_form cfg form parsed).body = form.body) := by
  refine ⟨fun h => ?_, fun h => ?_, fun h => ?_, fun h => ?_⟩ <;>
    simp [apply_parsed_to_form, pickField_eq_of_allBlank parsed _ h]

/-- Closed witness for C1 at a concrete parsed object whose summary
candidates are all blank while a cause is present. -/
theorem C1_witness :
    allCandidatesBlank
        [(pystr "DescriptionA", JValue.str (pystr "   ")),
         (pystr "summary", JValue.null),
         (pystr "DescriptionB", JValue.str (pystr "because"))]
        (summaryKeys defaultColumns) = true ∧
      (apply_parsed_to_form defaultColumns
          ⟨pystr "S", pystr "C", pystr "A", pystr "B", true, true, true, true⟩
          [(pystr "DescriptionA", JValue.str (pystr "   ")),
           (pystr "summary", JValue.null),
           (pystr "DescriptionB", JValue.str (pystr "because"))]).summary = pystr "S" :=
  ⟨by decide,
    (C1_apply_parsed_preserves_unreturned_fields defaultColumns
        ⟨pystr "S", pystr "C", pystr "A", pystr "B", true, true, true, true⟩
        [(pystr "DescriptionA", JValue.str (pystr "   ")),
         (pystr "summary", JValue.null),
         (pystr "DescriptionB", JValue.str (pystr "because"))]).1 (by decide)⟩

/-- C2: when `apply_parsed_to_form` picks a summary/cause/action value,
the stored value is exactly the first 200 characters of the picked value
(`List.take 200`, which is the value itself when it is at most 200
characters long); a picked body value is stored without truncation. -/
theorem C2_truncation_rules (cfg : ColumnConfig) (form : FormState) (parsed : JObj) :
    (∀ v, pickField parsed (summaryKeys cfg) = (true, v) →
      (apply_parsed_to_form cfg form parsed).summary = v.take 200) ∧
    (∀ v, pickField parsed (causeKeys cfg) = (true, v) →
      (apply_parsed_to_form cfg form parsed).cause = v.take 200) ∧
    (∀ v, pickField parsed (actionKeys cfg) = (true, v) →
      (apply_parsed_to_form cfg form parsed).action = v.take 200) ∧
    (∀ v, pickField parsed (bodyKeys cfg) = (true, v) →
      (apply_parsed_to_form cfg form parsed).body = v) := by
  refine ⟨fun v h => ?_, fun v h => ?_, fun v h => ?_, fun v h => ?_⟩ <;>
    simp [apply_parsed_to_form, h, limit_chars_200_take]

/-- Closed witness for C2: a cause of length 250 is stored as its first
200 characters; a body of length 300 is stored unmodified. -/
theorem C2_witness :
    pickField
        [(pystr "DescriptionB", JValue.str (List.replicate 250 'x')),
         (pystr "Body", JValue.str (List.replicate 300 'b'))]
        (causeKeys defaultColumns) = (true, List.replicate 250 'x') ∧
      (apply_parsed_to_form defaultColumns
          ⟨[], [], [], [], true, true, true, true⟩
          [(pystr "DescriptionB", JValue.str (List.replicate 250 'x')),
           (pystr "Body", JValue.str (List.replicate 300 'b'))]).cause =
        (List.replicate 250 'x').take 200 ∧
      (apply_parsed_to_form defaultColumns
          ⟨[], [], [], [], true, true, true, true⟩
          [(pystr "DescriptionB", JValue.str (List.replicate 250 'x')),
           (pystr "Body", JValue.str (List.replicate 300 'b'))]).body =
        List.replicate 300 'b' :=
  ⟨by decide,
    (C2_truncation_rules defaultColumns ⟨[], [], [], [], true, true, true, true⟩
        [(pystr "DescriptionB", JValue.str (List.replicate 250 'x')),
         (pystr "Body", JValue.str (List.replicate 300 'b'))]).2.1
      (List.replicate 250 'x') (by decide),
    (C2_truncation_rules defaultColumns ⟨[], [], [], [], true, true, true, true⟩
        [(pystr "DescriptionB", JValue.str (List.replicate 250 'x')),
         (pystr "Body", JValue.str (List.replicate 300 'b'))]).2.2.2
      (List.replicate 300 'b') (by decide)⟩

/-- C5: `try_parse_json_answer` returns the parsed object exactly when
the whole trimmed string parses as a JSON object; only on a parse
failure does it fall back to the greedy first-brace-to-last-brace span,
returning that span's parse exactly when it is an object; in every
other case (including a whole-string parse yielding a non-object such
as an array, and parse failures at either stage) it returns
absent-value. -/
theorem C5_try_parse_json_answer_contract :
    ∀ answer, try_parse_json_answer answer = specParseAnswer answer := by
  intro answer
  by_cases h : pyStrip answer = []
  · simp only [try_parse_json_answer, specParseAnswer, h, if_true]
    rfl
  · simp only [try_parse_json_answer, specParseAnswer, if_neg h]
    cases hj : jsonLoads (pyStrip answer) with
    | some v => cases v <;> rfl
    | none =>
      cases hb : braceSpan (pyStrip answer) with
      | some t => rfl
      | none => rfl

/-- C9 counterexample: on a query consisting of the two markers with
nothing between them, the marker pair is present (begin at index 0, end
right after it) and the query is short, yet `extract_user_message`
returns absent-value rather than the (empty) enclosed trimmed text. -/
theorem C9_counterexample_blank_marker_pair :
    extract_user_message (markerBegin ++ markerEnd) = none ∧
      findSub (pyStrip (markerBegin ++ markerEnd)) markerBegin = some 0 ∧
      findSubFrom (pyStrip (markerBegin ++ markerEnd)) markerEnd markerBegin.length =
        some markerBegin.length ∧
      (pyStrip (markerBegin ++ markerEnd)).length ≤ 160 := by
  refine ⟨by decide, by decide, by decide, by decide⟩

/-- C9 amended: `extract_user_message` returns the enclosed trimmed
text when the marker pair is found and that text is non-empty, and
absent-value when the enclosed text trims to nothing; without a usable
marker pair it returns the whole trimmed query exactly when that is
non-empty and at most 160 characters, and absent-value otherwise, so a
long structured prompt is never returned verbatim. -/
theorem C9_extract_user_message_amended :
    ∀ query, extract_user_message query = specExtractUserMessage query := by
  intro query
  by_cases h : pyStrip query = []
  · simp only [extract_user_message, specExtractUserMessage, h, if_true]
    rfl
  · simp only [extract_user_message, specExtractUserMessage, if_neg h]
    cases hb : findSub (pyStrip query) markerBegin with
    | none => simp [h]
    | some b =>
      cases he : findSubFrom (pyStrip query) markerEnd (b + markerBegin.length) with
      | none =>
        simp only [he]
        simp [h]
      | some e =>
        simp only [he]

theorem strCoerce_str (s : List Char) : strCoerce (some (.str s)) = s := by
  by_cases hs : s = [] <;> simp [strCoerce, pyTruthy, pyStrOf, hs]

/-- C7 counterexample: a chat-UI payload that contains the key
`summary` bound to JSON `null` (so the key is present but its value is
not a string) yields include_summary = false and leaves the stored
summary unchanged, although the claim's presence test would set the
flag and overwrite the field. -/
theorem C7_counterexample_null_summary_key :
    chat_ui_post_form
        [(pystr "user_comment", JValue.str (pystr "hi")), (pystr "summary", JValue.null)]
        ⟨pystr "old", pystr "c", pystr "a", pystr "b", true, true, true, true⟩ =
      .ok ⟨pystr "old", pystr "c", pystr "a", pystr "b", false, false, false, false⟩ ∧
      (lookupJ [(pystr "user_comment", JValue.str (pystr "hi")), (pystr "summary", JValue.null)]
          (pystr "summary")).isSome = true := by
  exact ⟨rfl, rfl⟩

/-- C7 amended: in `chat_ui_post`, for each of the four fields, the
presence of the key **with a string value** (regardless of the string's
truthiness — the empty string counts) determines the field's
include-flag for the turn, and that string overwrites the field's
stored value before the edit prompt is built; when the key is absent or
its value is not a string, the flag is set to false and the stored
value is unchanged. -/
theorem C7_chat_ui_post_field_semantics (payload : JObj) (f : FormState) (instr : List Char)
    (h : findInstruction payload = some instr) :
    ∃ f', chat_ui_post_form payload f = .ok f' ∧
      ((∀ s, lookupJ payload (pystr "summary") = some (.str s) →
          f'.include_summary = true ∧ f'.summary = s) ∧
        (isStrVal payload (pystr "summary") = false →
          f'.include_summary = false ∧ f'.summary = f.summary)) ∧
      ((∀ s, lookupJ payload (pystr "cause") = some (.str s) →
          f'.include_cause = true ∧ f'.cause = s) ∧
        (isStrVal payload (pystr "cause") = false →
          f'.include_cause = false ∧ f'.cause = f.cause)) ∧
      ((∀ s, lookupJ payload (pystr "action") = some (.str s) →
          f'.include_action = true ∧ f'.action = s) ∧
        (isStrVal payload (pystr "action") = false →
          f'.include_action = false ∧ f'.action = f.action)) ∧
      ((∀ s, lookupJ payload (pystr "body") = some (.str s) →
          f'.include_body = true ∧ f'.body = s) ∧
        (isStrVal payload (pystr "body") = false →
          f'.include_body = false ∧ f'.body = f.body)) := by
  refine ⟨_, by rw [chat_ui_post_form, h], ?_, ?_, ?_, ?_⟩ <;>
    refine ⟨fun s hs => ?_, fun hn => ?_⟩ <;>
      simp_all [isStrVal, strFieldValue, strCoerce_str]

/-- Closed witness for C7 (amended) at a payload holding an
instruction, an empty-string summary (present, string-typed, falsy) and
no cause key. -/
theorem C7_witness :
    findInstruction
        [(pystr "instruction", JValue.str (pystr "do it")),
         (pystr "summary", JValue.str [])] = some (pystr "do it") ∧
      (∃ f', chat_ui_post_form
            [(pystr "instruction", JValue.str (pystr "do it")),
             (pystr "summary", JValue.str [])]
            ⟨pystr "s0", pystr "c0", pystr "a0", pystr "b0", true, true, true, true⟩ = .ok f' ∧
          ((∀ s, lookupJ [(pystr "instruction", JValue.str (pystr "do it")),
               (pystr "summary", JValue.str [])] (pystr "summary") = some (.str s) →
              f'.include_summary = true ∧ f'.summary = s) ∧
            (isStrVal [(pystr "instruction", JValue.str (pystr "do it")),
                (pystr "summary", JValue.str [])] (pystr "summary") = false →
              f'.include_summary = false ∧ f'.summary = pystr "s0")) ∧
          ((∀ s, lookupJ [(pystr "instruction", JValue.str (pystr "do it")),
               (pystr "summary", JValue.str [])] (pystr "cause") = some (.str s) →
              f'.include_cause = true ∧ f'.cause = s) ∧
            (isStrVal [(pystr "instruction", JValue.str (pystr "do it")),
                (pystr "summary", JValue.str [])] (pystr "cause") = false →
              f'.include_cause = false ∧ f'.cause = pystr "c0")) ∧
          ((∀ s, lookupJ [(pystr "instruction", JValue.str (pystr "do it")),
               (pystr "summary", JValue.str [])] (pystr "action") = some (.str s) →
              f'.include_action = true ∧ f'.action = s) ∧
            (isStrVal [(pystr "instruction", JValue.str (pystr "do it")),
                (pystr "summary", JValue.str [])] (pystr "action") = false →
              f'.include_action = false ∧ f'.action = pystr "a0")) ∧
          ((∀ s, lookupJ [(pystr "instruction", JValue.str (pystr "do it")),
               (pystr "summary", JValue.str [])] (pystr "body") = some (.str s) →
              f'.include_body = true ∧ f'.body = s) ∧
            (isStrVal [(pystr "instruction", JValue.str (pystr "do it")),
                (pystr "summary", JValue.str [])] (pystr "body") = false →
              f'.include_body = false ∧ f'.body = pystr "b0"))) :=
  ⟨by decide,
    C7_chat_ui_post_field_semantics
      [(pystr "instruction", JValue.str (pystr "do it")), (pystr "summary", JValue.str [])]
      ⟨pystr "s0", pystr "c0", pystr "a0", pystr "b0", true, true, true, true⟩
      (pystr "do it") (by decide)⟩

/-- C10: the direct (user-authored) `update_form` stores string-typed
summary/cause/action values verbatim with no 200-character truncation
(so a direct update can leave them longer than 200 characters on the
stored form), coerces absent values to the empty string, and defaults
omitted include-flags to true. -/
theorem C10_update_form_stores_verbatim (payload : JObj) (f : FormState)
    (h : pyStrip (strCoerce (lookupJ payload (pystr "conversation_id"))) ≠ []) :
    ∃ f', update_form payload f = .ok f' ∧
      (∀ s, lookupJ payload (pystr "summary") = some (.str s) → f'.summary = s) ∧
      (∀ s, lookupJ payload (pystr "cause") = some (.str s) → f'.cause = s) ∧
      (∀ s, lookupJ payload (pystr "action") = some (.str s) → f'.action = s) ∧
      (lookupJ payload (pystr "summary") = none → f'.summary = []) ∧
      (lookupJ payload (pystr "cause") = none → f'.cause = []) ∧
      (lookupJ payload (pystr "action") = none → f'.action = []) ∧
      (lookupJ payload (pystr "include_summary") = none → f'.include_summary = true) ∧
      (lookupJ payload (pystr "include_cause") = none → f'.include_cause = true) ∧
      (lookupJ payload (pystr "include_action") = none → f'.include_action = true) ∧
      (lookupJ payload (pystr "include_body") = none → f'.include_body = true) := by
  refine ⟨_, by rw [update_form, if_neg h], fun s hs => ?_, fun s hs => ?_, fun s hs => ?_,
    fun hn => ?_, fun hn => ?_, fun hn => ?_, fun hn => ?_, fun hn => ?_, fun hn => ?_,
    fun hn => ?_⟩
  · simp [hs, strCoerce_str]
  · simp [hs, strCoerce_str]
  · simp [hs, strCoerce_str]
  all_goals simp [hn, strCoerce, boolGetDefaultTrue]

/-- Closed witness for C10: a direct update with a 250-character
summary and no cause/include keys. -/
theorem C10_witness :
    pyStrip (strCoerce (lookupJ
        [(pystr "conversation_id", JValue.str (pystr "cid")),
         (pystr "summary", JValue.str (List.replicate 250 's'))]
        (pystr "conversation_id"))) ≠ [] ∧
      (∃ f', update_form
            [(pystr "conversation_id", JValue.str (pystr "cid")),
             (pystr "summary", JValue.str (List.replicate 250 's'))]
            ⟨[], [], [], [], false, false, false, false⟩ = .ok f' ∧
          (∀ s, lookupJ [(pystr "conversation_id", JValue.str (pystr "cid")),
              (pystr "summary", JValue.str (List.replicate 250 's'))] (pystr "summary") =
                some (.str s) → f'.summary = s) ∧
          (∀ s, lookupJ [(pystr "conversation_id", JValue.str (pystr "cid")),
              (pystr "summary", JValue.str (List.replicate 250 's'))] (pystr "cause") =
                some (.str s) → f'.cause = s) ∧
          (∀ s, lookupJ [(pystr "conversation_id", JValue.str (pystr "cid")),
              (pystr "summary", JValue.str (List.replicate 250 's'))] (pystr "action") =
                some (.str s) → f'.action = s) ∧
          (lookupJ [(pystr "conversation_id", JValue.str (pystr "cid")),
              (pystr "summary", JValue.str (List.replicate 250 's'))] (pystr "summary") = none →
            f'.summary = []) ∧
          (lookupJ [(pystr "conversation_id", JValue.str (pystr "cid")),
              (pystr "summary", JValue.str (List.replicate 250 's'))] (pystr "cause") = none →
            f'.cause = []) ∧
          (lookupJ [(pystr "conversation_id", JValue.str (pystr "cid")),
              (pystr "summary", JValue.str (List.replicate 250 's'))] (pystr "action") = none →
            f'.action = []) ∧
          (lookupJ [(pystr "conversation_id", JValue.str (pystr "cid")),
              (pystr "summary", JValue.str (List.replicate 250 's'))] (pystr "include_summary") = none →
            f'.include_summary = true) ∧
          (lookupJ [(pystr "conversation_id", JValue.str (pystr "cid")),
              (pystr "summary", JValue.str (List.replicate 250 's'))] (pystr "include_cause") = none →
            f'.include_cause = true) ∧
          (lookupJ [(pystr "conversation_id", JValue.str (pystr "cid")),
              (pystr "summary", JValue.str (List.replicate 250 's'))] (pystr "include_action") = none →
            f'.include_action = true) ∧
          (lookupJ [(pystr "conversation_id", JValue.str (pystr "cid")),
              (pystr "summary", JValue.str (List.replicate 250 's'))] (pystr "include_body") = none →
            f'.include_body = true)) :=
  ⟨by decide,
    C10_update_form_stores_verbatim
      [(pystr "conversation_id", JValue.str (pystr "cid")),
       (pystr "summary", JValue.str (List.replicate 250 's'))]
      ⟨[], [], [], [], false, false, false, false⟩ (by decide)⟩

/-- C8: evaluating `delete_user` at the failing input.  The users table
holds exactly one row whose role column is `admin` (id 1) and one
ordinary user (id 2); acting user 2 deletes user 1.  The operation
succeeds and removes the sole admin row — the last-admin Validation
guard never fires because `app/models.py` maps no `role` attribute on
`User`, so `getattr(target, "role", None)` is always `None` — although
the claim (and the guard written in `delete_user` itself) requires a
Validation failure that leaves the row in place. -/
theorem C8_delete_last_admin_not_prevented :
    delete_user
        [⟨1, pystr "admin", pystr "h1", pystr "admin"⟩,
         ⟨2, pystr "alice", pystr "h2", pystr "user"⟩] 2 1 =
      .ok [⟨2, pystr "alice", pystr "h2", pystr "user"⟩] ∧
      adminCount
        [⟨1, pystr "admin", pystr "h1", pystr "admin"⟩,
         ⟨2, pystr "alice", pystr "h2", pystr "user"⟩] = 1 ∧
      adminCount [⟨2, pystr "alice", pystr "h2", pystr "user"⟩] = 0 := by
  exact ⟨rfl, rfl, rfl⟩

theorem mailLoop_latest (bodyCol : List Char) :
    ∀ (idx : Nat) (items : List JObj),
      (mailLoop bodyCol idx items).2 =
        ((items.filter (extractableRow bodyCol)).getLast?).map
          (fun it => clean_email_text (extract_mail_body it bodyCol)) := by
  intro idx items
  induction items generalizing idx with
  | nil => rfl
  | cons it rest ih =>
    by_cases hr : extract_mail_body it bodyCol = []
    · have hx : extractableRow bodyCol it = false := by
        simp [extractableRow, hr]
      simp [mailLoop, hr, hx, ih (idx + 1)]
    · have hx : extractableRow bodyCol it = true := by
        simp [extractableRow]
        exact hr
      have hf : (it :: rest).filter (extractableRow bodyCol) =
          it :: rest.filter (extractableRow bodyCol) := by
        simp [hx]
      rw [hf]
      cases hl : rest.filter (extractableRow bodyCol) with
      | nil =>
        have h2 := ih (idx + 1)
        rw [hl] at h2
        simp [mailLoop, hr, h2]
      | cons b bs =>
        have h2 := ih (idx + 1)
        rw [hl] at h2
        have hbs : (b :: bs).getLast? = some ((b :: bs).getLast (by simp)) :=
          List.getLast?_eq_getLast _ (by simp)
        simp [mailLoop, hr, h2, List.getLast?_cons_cons, hbs]

/-- C4 counterexample: a single candidate mail row whose body column is
the quoted line `> x` yields an extractable (non-empty) raw body, yet
the summarize-case workflow fails with NotFound because the cleaned
form of that body is empty. -/
theorem C4_counterexample_extractable_but_not_found :
    extractableRow (pystr "Body") [(pystr "Body", JValue.str (pystr "> x"))] = true ∧
      summarize_case_outcome (pystr "Body") [[(pystr "Body", JValue.str (pystr "> x"))]] =
        .notFound := by
  exact ⟨by decide, rfl⟩

/-- C4 amended: after fetching, filtering, de-duplicating and sorting
the candidate mail rows, `summarize_case` fails with NotFound exactly
when there is no usable mail body: either no candidate row yields an
extractable body, or the last row (in processed order) that does yields
a body that the email cleaner reduces to the empty string; in every
other case the workflow proceeds to the prompt-building and LLM step. -/
theorem C4_not_found_iff_no_usable_body :
    ∀ (bodyCol : List Char) (items : List JObj),
      summarize_case_outcome bodyCol items = .notFound ↔
        noUsableMailBody bodyCol items = true := by
  intro bodyCol items
  simp only [summarize_case_outcome, noUsableMailBody]
  rw [mailLoop_latest]
  cases h : (items.filter (extractableRow bodyCol)).getLast? with
  | none => simp
  | some it =>
    by_cases hc : clean_email_text (extract_mail_body it bodyCol) = [] <;>
      simp [hc]

theorem splitOnNl_ne_nil (s : List Char) : splitOnNl s ≠ [] := by
  cases s with
  | nil => simp [splitOnNl]
  | cons c rest =>
    rw [splitOnNl]
    by_cases h : c = '\n'
    · simp [h]
    · rw [if_neg h]
      cases hs : splitOnNl rest <;> simp

theorem joinNl_splitOnNl (s : List Char) : joinNl (splitOnNl s) = s := by
  induction s with
  | nil => rfl
  | cons c rest ih =>
    rw [splitOnNl]
    by_cases h : c = '\n'
    · rw [if_pos h, h]
      cases hs : splitOnNl rest with
      | nil => exact absurd hs (splitOnNl_ne_nil rest)
      | cons l ls =>
        rw [hs] at ih
        show joinNl ([] :: l :: ls) = '\n' :: rest
        rw [joinNl]
        · simpa using ih
        · simp
    · rw [if_neg h]
      cases hs : splitOnNl rest with
      | nil => exact absurd hs (splitOnNl_ne_nil rest)
      | cons l ls =>
        rw [hs] at ih
        cases ls with
        | nil =>
          show joinNl [c :: l] = c :: rest
          have hl : l = rest := by simpa [joinNl] using ih
          simp [joinNl, hl]
        | cons l2 ls2 =>
          show joinNl ((c :: l) :: l2 :: ls2) = c :: rest
          have ih2 : l ++ '\n' :: joinNl (l2 :: ls2) = rest := by
            simpa [joinNl] using ih
          simpa [joinNl] using congrArg (c :: ·) ih2

/-- C6 counterexample: the email sanitizer is not idempotent.  On the
input `a\r\r\nb` the CRLF replacement (left-to-right, non-overlapping)
leaves the residual sequence `\r\n` in its output, which a second pass
then rewrites again. -/
theorem C6_counterexample_not_idempotent :
    clean_email_text (clean_email_text (pystr "a\r\r\nb")) ≠
      clean_email_text (pystr "a\r\r\nb") := by
  decide

/-- C6 amended: the sanitizer fixes every string that is already in
fully cleaned shape — stripped, free of CRLF sequences, with at most
one `From:` header line, no thread-separator match and no quoted lines
— but it is not idempotent on arbitrary input, because one pass can
leave a `\r\n` remnant (and can expose a later thread separator) that a
second pass would remove. -/
theorem C6_clean_fixes_cleaned_strings (s : List Char)
    (h1 : pyReplaceCRLF s = s) (h2 : pyStrip s = s)
    (h3 : (fromHitOffsets 0 (splitOnNl s)).length ≤ 1)
    (h4 : sepCutOffset s = none)
    (h5 : (splitOnNl s).filter (fun ln => !isQuoteLine ln) = splitOnNl s) :
    clean_email_text s = s := by
  simp only [clean_email_text, h1, h2]
  by_cases hs : s = []
  · simp [hs]
  · rw [if_neg hs]
    cases hf : fromHitOffsets 0 (splitOnNl s) with
    | nil => simp only [hf, h4, h5, joinNl_splitOnNl, h2]
    | cons a tail =>
      cases tail with
      | nil => simp only [hf, h4, h5, joinNl_splitOnNl, h2]
      | cons b t2 =>
        rw [hf] at h3
        simp at h3

/-- Closed witness for C6 (amended) at the two-line string
`hello\nworld`. -/
theorem C6_witness :
    pyReplaceCRLF (pystr "hello\nworld") = pystr "hello\nworld" ∧
      pyStrip (pystr "hello\nworld") = pystr "hello\nworld" ∧
      (fromHitOffsets 0 (splitOnNl (pystr "hello\nworld"))).length ≤ 1 ∧
      sepCutOffset (pystr "hello\nworld") = none ∧
      (splitOnNl (pystr "hello\nworld")).filter (fun ln => !isQuoteLine ln) =
        splitOnNl (pystr "hello\nworld") ∧
      clean_email_text (pystr "hello\nworld") = pystr "hello\nworld" :=
  ⟨by decide, by decide, by decide, by decide, by decide,
    C6_clean_fixes_cleaned_strings (pystr "hello\nworld")
      (by decide) (by decide) (by decide) (by decide) (by decide)⟩

theorem b64ValOf_CharOf_fin : ∀ i : Fin 64, b64ValOf (b64CharOf i.val) = some i.val := by
  decide

theorem b64ValOf_CharOf (n : Nat) (h : n < 64) : b64ValOf (b64CharOf n) = some n :=
  b64ValOf_CharOf_fin ⟨n, h⟩

theorem b64CharOf_ne_fin : ∀ i : Fin 64, b64CharOf i.val ≠ '=' ∧ b64CharOf i.val ≠ '$' := by
  decide

theorem b64CharOf_ne (n : Nat) : b64CharOf n ≠ '=' ∧ b64CharOf n ≠ '$' := by
  by_cases h : n < 64
  · exact b64CharOf_ne_fin ⟨n, h⟩
  · have hl : b64chars.length ≤ n := by
      have : b64chars.length = 64 := by decide
      omega
    have : b64CharOf n = 'A' := by
      unfold b64CharOf
      exact List.getD_eq_default _ _ hl
    rw [this]
    exact ⟨by decide, by decide⟩

theorem b64encode_no_dollar : ∀ (bs : List Nat), ∀ c ∈ b64encode bs, c ≠ '$'
  | [] => by intro c hc; simp [b64encode] at hc
  | [b0] => by
    intro c hc
    simp [b64encode] at hc
    rcases hc with rfl | rfl | rfl
    · exact (b64CharOf_ne _).2
    · exact (b64CharOf_ne _).2
    · decide
  | [b0, b1] => by
    intro c hc
    simp [b64encode] at hc
    rcases hc with rfl | rfl | rfl | rfl
    · exact (b64CharOf_ne _).2
    · exact (b64CharOf_ne _).2
    · exact (b64CharOf_ne _).2
    · decide
  | b0 :: b1 :: b2 :: rest => by
    intro c hc
    simp only [b64encode, List.mem_cons] at hc
    rcases hc with rfl | rfl | rfl | rfl | hc
    · exact (b64CharOf_ne _).2
    · exact (b64CharOf_ne _).2
    · exact (b64CharOf_ne _).2
    · exact (b64CharOf_ne _).2
    · exact b64encode_no_dollar rest c hc

theorem mem_dropWhile_imp {α : Type} (p : α → Bool) :
    ∀ (l : List α) (c : α), c ∈ l.dropWhile p → c ∈ l := by
  intro l
  induction l with
  | nil => intro c h; simp [List.dropWhile] at h
  | cons a t ih =>
    intro c h
    rw [List.dropWhile] at h
    by_cases hp : p a
    · rw [hp] at h
      exact List.mem_cons_of_mem a (ih c h)
    · simp only [Bool.not_eq_true] at hp
      rw [hp] at h
      exact h

theorem mem_pyRStripEq {c : Char} {s : List Char} (h : c ∈ pyRStripEq s) : c ∈ s := by
  unfold pyRStripEq at h
  rw [List.mem_reverse] at h
  have := mem_dropWhile_imp _ _ _ h
  rwa [List.mem_reverse] at this

theorem splitDollarAux_append (b : List Char) :
    ∀ (a : List Char), '$' ∉ a → splitDollarAux (a ++ '$' :: b) = some (a, b) := by
  intro a
  induction a with
  | nil => intro _; simp [splitDollarAux]
  | cons c t ih =>
    intro h
    have hc : c ≠ '$' := fun hcc => h (hcc ▸ List.mem_cons_self c t)
    have ht : '$' ∉ t := fun htt => h (List.mem_cons_of_mem c htt)
    rw [List.cons_append, splitDollarAux, if_neg hc, ih ht]
    rfl

theorem splitDollar_encoding (a b c d : List Char)
    (ha : '$' ∉ a) (hb : '$' ∉ b) (hc : '$' ∉ c) :
    splitDollar 3 (a ++ '$' :: (b ++ '$' :: (c ++ '$' :: d))) = [a, b, c, d] := by
  rw [splitDollar, splitDollarAux_append _ _ ha]
  show a :: splitDollar 2 (b ++ '$' :: (c ++ '$' :: d)) = [a, b, c, d]
  rw [splitDollar, splitDollarAux_append _ _ hb]
  show a :: b :: splitDollar 1 (c ++ '$' :: d) = [a, b, c, d]
  rw [splitDollar, splitDollarAux_append _ _ hc]
  rfl

theorem dropWhile_append_char (p : Char → Bool) :
    ∀ (l1 l2 : List Char), List.dropWhile p (l1 ++ l2) =
      (if (List.dropWhile p l1).isEmpty then List.dropWhile p l2
       else List.dropWhile p l1 ++ l2) := by
  intro l1
  induction l1 with
  | nil => intro l2; simp
  | cons a t ih =>
    intro l2
    by_cases hp : p a
    · simp only [List.cons_append, List.dropWhile, hp]
      exact ih l2
    · simp only [Bool.not_eq_true] at hp
      simp only [List.cons_append, List.dropWhile, hp]
      simp

theorem pyRStripEq_cons4 (c1 c2 c3 c4 : Char) (t : List Char) (h : (c4 = '=') = false) :
    pyRStripEq (c1 :: c2 :: c3 :: c4 :: t) = c1 :: c2 :: c3 :: c4 :: pyRStripEq t := by
  unfold pyRStripEq
  have hrev : (c1 :: c2 :: c3 :: c4 :: t).reverse = t.reverse ++ [c4, c3, c2, c1] := by
    simp
  rw [hrev, dropWhile_append_char]
  by_cases hdw : (List.dropWhile (fun x => x = '=') t.reverse).isEmpty
  · rw [if_pos hdw]
    rw [List.isEmpty_iff] at hdw
    rw [hdw]
    simp [List.dropWhile, h]
  · rw [if_neg hdw]
    simp

theorem pad_b64_cons4 (c1 c2 c3 c4 : Char) (t : List Char) :
    pad_b64 (c1 :: c2 :: c3 :: c4 :: t) = c1 :: c2 :: c3 :: c4 :: pad_b64 t := by
  unfold pad_b64
  have hm : (4 - (c1 :: c2 :: c3 :: c4 :: t).length % 4) % 4 =
      (4 - t.length % 4) % 4 := by
    simp only [List.length_cons]
    omega
  rw [hm]
  simp

theorem b64_roundtrip : ∀ (bs : List Nat), (∀ b ∈ bs, b < 256) →
    b64decode (pad_b64 (pyRStripEq (b64encode bs))) = some bs
  | [] => by intro _; rfl
  | [b0] => by
    intro h
    have hb0 : b0 < 256 := h b0 (by simp)
    have hne : b64CharOf (b0 % 4 * 16) ≠ '=' := (b64CharOf_ne (b0 % 4 * 16)).1
    have hv0 := b64ValOf_CharOf (b0 / 4) (by omega)
    have hv1 := b64ValOf_CharOf (b0 % 4 * 16) (by omega)
    show b64decode (pad_b64 (pyRStripEq
      [b64CharOf (b0 / 4), b64CharOf (b0 % 4 * 16), '=', '='])) = some [b0]
    rw [show pyRStripEq [b64CharOf (b0 / 4), b64CharOf (b0 % 4 * 16), '=', '='] =
        [b64CharOf (b0 / 4), b64CharOf (b0 % 4 * 16)] by
      simp [pyRStripEq, List.dropWhile, hne]]
    rw [show pad_b64 [b64CharOf (b0 / 4), b64CharOf (b0 % 4 * 16)] =
        [b64CharOf (b0 / 4), b64CharOf (b0 % 4 * 16), '=', '='] by
      simp [pad_b64, List.replicate]]
    simp only [b64decode, hv0, hv1]
    simp only [and_self, eq_self_iff_true, if_true, ite_true]
    simp
    all_goals omega
  | [b0, b1] => by
    intro h
    have hb0 : b0 < 256 := h b0 (by simp)
    have hb1 : b1 < 256 := h b1 (by simp)
    have hne : b64CharOf (b1 % 16 * 4) ≠ '=' := (b64CharOf_ne (b1 % 16 * 4)).1
    have hv0 := b64ValOf_CharOf (b0 / 4) (by omega)
    have hv1 := b64ValOf_CharOf (b0 % 4 * 16 + b1 / 16) (by omega)
    have hv2 := b64ValOf_CharOf (b1 % 16 * 4) (by omega)
    show b64decode (pad_b64 (pyRStripEq
      [b64CharOf (b0 / 4), b64CharOf (b0 % 4 * 16 + b1 / 16),
        b64CharOf (b1 % 16 * 4), '='])) = some [b0, b1]
    rw [show pyRStripEq [b64CharOf (b0 / 4), b64CharOf (b0 % 4 * 16 + b1 / 16),
        b64CharOf (b1 % 16 * 4), '='] =
        [b64CharOf (b0 / 4), b64CharOf (b0 % 4 * 16 + b1 / 16), b64CharOf (b1 % 16 * 4)] by
      simp [pyRStripEq, List.dropWhile, hne]]
    rw [show pad_b64 [b64CharOf (b0 / 4), b64CharOf (b0 % 4 * 16 + b1 / 16),
        b64CharOf (b1 % 16 * 4)] =
        [b64CharOf (b0 / 4), b64CharOf (b0 % 4 * 16 + b1 / 16),
          b64CharOf (b1 % 16 * 4), '='] by
      simp [pad_b64, List.replicate]]
    simp only [b64decode, hv0, hv1, hv2]
    simp only [and_self, eq_self_iff_true, if_true, ite_true, hne, if_false, ite_false]
    simp
    constructor
    all_goals omega
  | b0 :: b1 :: b2 :: rest => by
    intro h
    have hb0 : b0 < 256 := h b0 (by simp)
    have hb1 : b1 < 256 := h b1 (by simp)
    have hb2 : b2 < 256 := h b2 (by simp)
    have hrest : ∀ b ∈ rest, b < 256 := fun b hb => h b (by simp [hb])
    have hne : b64CharOf (b2 % 64) ≠ '=' := (b64CharOf_ne (b2 % 64)).1
    have hv0 := b64ValOf_CharOf (b0 / 4) (by omega)
    have hv1 := b64ValOf_CharOf (b0 % 4 * 16 + b1 / 16) (by omega)
    have hv2 := b64ValOf_CharOf (b1 % 16 * 4 + b2 / 64) (by omega)
    have hv3 := b64ValOf_CharOf (b2 % 64) (by omega)
    show b64decode (pad_b64 (pyRStripEq
      (b64CharOf (b0 / 4) :: b64CharOf (b0 % 4 * 16 + b1 / 16) ::
        b64CharOf (b1 % 16 * 4 + b2 / 64) :: b64CharOf (b2 % 64) :: b64encode rest))) =
      some (b0 :: b1 :: b2 :: rest)
    rw [pyRStripEq_cons4 _ _ _ _ _ (by simpa using hne), pad_b64_cons4]
    have hguard : ¬(pad_b64 (pyRStripEq (b64encode rest)) = [] ∧ b64CharOf (b2 % 64) = '=') := by
      rintro ⟨-, hcontra⟩
      exact hne hcontra
    simp only [b64decode, hv0, hv1, hv2, hv3, if_neg hguard]
    rw [b64_roundtrip rest hrest]
    simp
    refine ⟨by omega, by omega, by omega⟩

theorem no_dollar_in_stripped_b64 (bs : List Nat) :
    '$' ∉ pyRStripEq (b64encode bs) :=
  fun hm => b64encode_no_dollar bs '$' (mem_pyRStripEq hm) rfl

theorem verify_password_hash (prf : List Nat → List Nat → Nat → Nat → List Nat)
    (hlen : ∀ p s i d, (prf p s i d).length = d)
    (hbytes : ∀ p s i d, ∀ b ∈ prf p s i d, b < 256)
    (p q salt : List Nat) (hq : q ≠ []) (hsalt : ∀ b ∈ salt, b < 256)
    (enc : List Char) (henc : hash_password prf q salt = some enc) :
    verify_password prf p enc =
      decide (prf p salt ITERATIONS 32 = prf q salt ITERATIONS 32) := by
  unfold hash_password at henc
  rw [if_neg hq] at henc
  injection henc with henc
  subst henc
  unfold verify_password
  rw [splitDollar_encoding _ _ _ _ (by decide) (by decide)
    (no_dollar_in_stripped_b64 salt)]
  have hint : pyInt (natToDec ITERATIONS) = some 260000 := by decide
  have hsaltdec := b64_roundtrip salt hsalt
  have hdkdec := b64_roundtrip _ (hbytes q salt ITERATIONS 32)
  simp only [hint, hsaltdec, hdkdec, hlen]
  rw [if_neg (fun hcontra => hcontra rfl)]
  rw [if_neg (by norm_num)]
  rfl

theorem verify_false_of_malformed (prf : List Nat → List Nat → Nat → Nat → List Nat)
    (p : List Nat) (enc : List Char) (h : encodedParses enc = false) :
    verify_password prf p enc = false := by
  unfold verify_password
  unfold encodedParses at h
  cases hs : splitDollar 3 enc with
  | nil => rfl
  | cons a t1 =>
    cases t1 with
    | nil => rfl
    | cons b t2 =>
      cases t2 with
      | nil => rfl
      | cons c t3 =>
        cases t3 with
        | nil => rfl
        | cons d t4 =>
          cases t4 with
          | cons e t5 => rfl
          | nil =>
            rw [hs] at h
            replace h : (if a ≠ ALGO then false
              else
                match pyInt b, b64decode (pad_b64 c), b64decode (pad_b64 d) with
                | some iters, some _, some expected =>
                  !decide (iters < 1 ∨ expected.length < 1)
                | _, _, _ => false) = false := h
            show (if a ≠ ALGO then false
              else
                match pyInt b, b64decode (pad_b64 c), b64decode (pad_b64 d) with
                | some iters, some salt, some expected =>
                  if iters < 1 ∨ expected.length < 1 then false
                  else decide (prf p salt iters.toNat expected.length = expected)
                | _, _, _ => false) = false
            by_cases halgo : a ≠ ALGO
            · rw [if_pos halgo]
            · rw [if_neg halgo] at h ⊢
              cases hi : pyInt b with
              | none => rfl
              | some iters =>
                cases hsalt : b64decode (pad_b64 c) with
                | none => rfl
                | some salt =>
                  cases hdk : b64decode (pad_b64 d) with
                  | none => rfl
                  | some expected =>
                    rw [hi, hsalt, hdk] at h
                    replace h : (!decide (iters < 1 ∨ expected.length < 1)) = false := h
                    simp only [Bool.not_eq_false'] at h
                    show (if iters < 1 ∨ expected.length < 1 then false
                      else decide (prf p salt iters.toNat expected.length = expected)) = false
                    rw [if_pos (of_decide_eq_true h)]

/-- C3: with the PBKDF2 derived-key function abstracted as a
deterministic `prf` of correct output length and byte range —
`hashlib.pbkdf2_hmac` satisfies both — verification round-trips:
(1) for every non-empty password and salt, verifying a password against
its own freshly produced hash succeeds; (2) verifying a password
against the hash of a different password fails whenever the derived
keys of the two passwords differ (the sense in which distinct passwords
are distinguished by the hash); and (3) for every candidate and every
malformed or unrecognized encoded value, verification returns false —
and, the embedding being total, never raises. -/
theorem C3_password_verify_contract
    (prf : List Nat → List Nat → Nat → Nat → List Nat)
    (hlen : ∀ p s i d, (prf p s i d).length = d)
    (hbytes : ∀ p s i d, ∀ b ∈ prf p s i d, b < 256) :
    (∀ p salt enc, p ≠ [] → (∀ b ∈ salt, b < 256) →
      hash_password prf p salt = some enc → verify_password prf p enc = true) ∧
    (∀ p q salt enc, q ≠ [] → (∀ b ∈ salt, b < 256) →
      prf p salt ITERATIONS 32 ≠ prf q salt ITERATIONS 32 →
      hash_password prf q salt = some enc → verify_password prf p enc = false) ∧
    (∀ p enc, encodedParses enc = false → verify_password prf p enc = false) := by
  refine ⟨fun p salt enc hp hsalt henc => ?_, fun p q salt enc hq hsalt hne henc => ?_,
    fun p enc h => verify_false_of_malformed prf p enc h⟩
  · rw [verify_password_hash prf hlen hbytes p p salt hp hsalt enc henc]
    simp
  · rw [verify_password_hash prf hlen hbytes p q salt hq hsalt enc henc]
    simpa using hne

theorem toyPrf_length : ∀ p s i d, (toyPrf p s i d).length = d := by
  intro p s i d
  simp [toyPrf]
  omega

theorem toyPrf_bytes : ∀ p s i d, ∀ b ∈ toyPrf p s i d, b < 256 := by
  intro p s i d b hb
  have hb2 := List.mem_of_mem_take hb
  rw [List.mem_map] at hb2
  obtain ⟨a, -, rfl⟩ := hb2
  exact Nat.mod_lt _ (by norm_num)

/-- Closed witness for C3 at the toy derived-key function: a correct
password verifies against its own hash, a one-byte-different password
fails, and a garbage encoded value fails. -/
theorem C3_witness :
    verify_password toyPrf [97, 98, 99]
        ((hash_password toyPrf [97, 98, 99] (List.replicate 16 5)).getD []) = true ∧
      verify_password toyPrf [97, 98, 100]
        ((hash_password toyPrf [97, 98, 99] (List.replicate 16 5)).getD []) = false ∧
      verify_password toyPrf [97] (pystr "garbage") = false :=
  ⟨(C3_password_verify_contract toyPrf toyPrf_length toyPrf_bytes).1
      [97, 98, 99] (List.replicate 16 5) _ (by decide) (by decide) rfl,
    (C3_password_verify_contract toyPrf toyPrf_length toyPrf_bytes).2.1
      [97, 98, 100] [97, 98, 99] (List.replicate 16 5) _ (by decide) (by decide)
      (by decide) rfl,
    (C3_password_verify_contract toyPrf toyPrf_length toyPrf_bytes).2.2
      [97] (pystr "garbage") (by decide)⟩
